import Mathlib

/-!
Shallow embedding of `src/server.js` (PhongNews backend): JSON values,
the user/pending data model, the Upstash-Redis-backed key-value store,
and the Express route handlers for `/api/auth/*` and `/api/data/*`.

Effectful primitives (bcrypt.hash, bcrypt.compare, jwt.sign, Date.now,
new Date().toISOString, sendMail success) are passed in as explicit
parameters, and the remote store is threaded as explicit state.
-/

set_option autoImplicit false

namespace PhongNews

/-- JSON values, as produced by `express.json()` body parsing. -/
inductive JVal where
  | jnull
  | jbool (b : Bool)
  | jnum (n : Int)
  | jstr (s : String)
  | jarr (elems : List JVal)
  | jobj (fields : List (String × JVal))

/-- A parsed JSON object body: an ordered field list (JS objects have
unique keys; the type is more permissive). -/
abbrev Obj := List (String × JVal)

/-- JS property read `o[k]`: the first field named `k` (`none` = `undefined`).
Polymorphic in the value type: used both for JSON objects and for the
token → draft pending map. -/
def getField {β : Type} (o : List (String × β)) (k : String) : Option β :=
  (o.find? (fun p => p.1 == k)).map Prod.snd

/-- JS property write / spread-override `o[k] = v` and `{...o, k: v}`:
replace the field in place if present, else append it. -/
def setField {β : Type} (o : List (String × β)) (k : String) (v : β) :
    List (String × β) :=
  if o.any (fun p => p.1 == k) then
    o.map (fun p => if p.1 == k then (k, v) else p)
  else
    o ++ [(k, v)]

/-- JS `delete o[k]`. -/
def deleteField {β : Type} (o : List (String × β)) (k : String) :
    List (String × β) :=
  o.filter (fun p => !(p.1 == k))

/-- JS object spread `{...a, ...b}`: fields of `b` override fields of `a`. -/
def mergeObj (a b : Obj) : Obj :=
  b.foldl (fun acc p => setField acc p.1 p.2) a

mutual
/-- JS `String(v)` coercion of a defined value. -/
def jvalToString : JVal → String
  | .jnull => "null"
  | .jbool true => "true"
  | .jbool false => "false"
  | .jnum n => toString n
  | .jstr s => s
  | .jarr xs => arrJoin xs
  | .jobj _ => "[object Object]"

/-- Embeds `Array.prototype.join(",")` as used by `String(array)`;
`null` elements render as the empty string. -/
def arrJoin : List JVal → String
  | [] => ""
  | [x] => elemStr x
  | x :: y :: rest => elemStr x ++ "," ++ arrJoin (y :: rest)

/-- One array element under `join`: `null` becomes the empty string. -/
def elemStr : JVal → String
  | .jnull => ""
  | v => jvalToString v
end

/-- JS `String(o[k])`, where a missing property is `undefined`. -/
def jsStr : Option JVal → String
  | none => "undefined"
  | some v => jvalToString v

/-- A stored user record (the `password` field holds the bcrypt hash). -/
structure User where
  name : String
  email : String
  password : String
  createdAt : String
  approved : Bool
deriving DecidableEq, Repr

/-- A user record with the `password` field stripped, as returned by login. -/
structure SafeUser where
  name : String
  email : String
  createdAt : String
  approved : Bool
deriving DecidableEq, Repr

/-- Embeds `safeUser(u)`: destructure away `password`, keep the rest. -/
def safeUser (u : User) : SafeUser :=
  { name := u.name, email := u.email, createdAt := u.createdAt, approved := u.approved }

/-- A value stored in the KV store under one key. -/
inductive StoreVal where
  | usersV (l : List User)
  | pendingV (m : List (String × User))
  | recsV (l : List Obj)

/-- The remote key-value store (Upstash Redis), as a total key map. -/
def Store := String → Option StoreVal

/-- Embeds `redis.get(k)`. -/
def redisGet (s : Store) (k : String) : Option StoreVal := s k

/-- Embeds `redis.set(k, v)`. -/
def redisSet (s : Store) (k : String) (v : StoreVal) : Store :=
  fun k2 => if k2 = k then some v else s k2

/-- Embeds `readUsers()`: `(await redis.get('users')) || []`. -/
def readUsers (s : Store) : List User :=
  match s "users" with
  | some (.usersV l) => l
  | _ => []

/-- Embeds `saveUsers(data)`: `redis.set('users', data)`. -/
def saveUsers (s : Store) (l : List User) : Store :=
  redisSet s "users" (.usersV l)

/-- Embeds `readPending()`: `(await redis.get('pending')) || {}`, a token → draft map. -/
def readPending (s : Store) : List (String × User) :=
  match s "pending" with
  | some (.pendingV m) => m
  | _ => []

/-- Embeds `savePending(data)`: `redis.set('pending', data)`. -/
def savePending (s : Store) (m : List (String × User)) : Store :=
  redisSet s "pending" (.pendingV m)

/-- The store key backing table `t`: `` `data_${table}` ``. -/
def dataKey (t : String) : String := "data_" ++ t

/-- Embeds `(await redis.get(`data_${table}`)) || []`. -/
def readTable (s : Store) (t : String) : List Obj :=
  match s (dataKey t) with
  | some (.recsV l) => l
  | _ => []

/-- Embeds `` redis.set(`data_${table}`, list) ``. -/
def saveTable (s : Store) (t : String) (l : List Obj) : Store :=
  redisSet s (dataKey t) (.recsV l)

/-- JS falsiness of an optional string body/query field:
`undefined` and the empty string are falsy. -/
def falsy : Option String → Bool
  | none => true
  | some s => s.isEmpty

/-- JS `s.toLowerCase()` (ASCII case mapping, per character). -/
def strToLower (s : String) : String := ⟨s.data.map Char.toLower⟩

/-- Embeds `u.email.toLowerCase() === email.toLowerCase()`. -/
def emailMatch (email : String) (u : User) : Bool :=
  strToLower u.email == strToLower email

/-- Mutate the first list element satisfying `p` (JS `find` / `findIndex`
followed by in-place assignment). -/
def updateFirst {α : Type} (p : α → Bool) (f : α → α) : List α → List α
  | [] => []
  | x :: rest => if p x then f x :: rest else x :: updateFirst p f rest

/-! ## Route handlers -/

/-- Outcome of `POST /api/auth/register`. -/
inductive RegisterRes where
  | missingFields   -- 400 `{message:'Thiếu thông tin.'}`
  | emailExists     -- 409 `{message:'Email đã tồn tại.'}`
  | registered      -- 200 `{message:'Đăng ký thành công. Vui lòng chờ duyệt.'}`
  | registerError   -- 500 `{message:'Lỗi đăng ký', error}` (catch-all)
deriving DecidableEq, Repr

/-- HTTP status of a register outcome. -/
def registerStatus : RegisterRes → Nat
  | .missingFields => 400
  | .emailExists => 409
  | .registered => 200
  | .registerError => 500

/-- Embeds `POST /api/auth/register`. `hash` stands for `bcrypt.hash(password, 10)`,
`createdAt` for `new Date().toISOString()`, `token` for
`jwt.sign({email}, JWT_SECRET, {expiresIn:'7d'})`, and `mailOk` for whether
the `sendMail` call to the admin resolves (a rejection is caught by the
surrounding `try` and answered with status 500 after the draft was saved). -/
def register (s : Store) (name? email? password? : Option String)
    (hash createdAt token : String) (mailOk : Bool) : RegisterRes × Store :=
  if falsy name? || falsy email? || falsy password? then (.missingFields, s)
  else
    let name := name?.getD ""
    let email := email?.getD ""
    let users := readUsers s
    if users.any (emailMatch email) then (.emailExists, s)
    else
      let userDraft : User :=
        { name := name, email := email, password := hash,
          createdAt := createdAt, approved := false }
      let pending := readPending s
      let s2 := savePending s (setField pending token userDraft)
      if mailOk then (.registered, s2) else (.registerError, s2)

/-- Outcome of `GET /api/auth/approve`. -/
inductive ApproveRes where
  | missingToken   -- 400 'Thiếu token.'
  | invalidToken   -- 404 'Token không hợp lệ.'
  | approvedOk     -- 200 'Phê duyệt thành công.'
deriving DecidableEq, Repr

/-- HTTP status of an approve outcome. -/
def approveStatus : ApproveRes → Nat
  | .missingToken => 400
  | .invalidToken => 404
  | .approvedOk => 200

/-- Embeds `GET /api/auth/approve?token=`. -/
def approve (s : Store) (token? : Option String) : ApproveRes × Store :=
  if falsy token? then (.missingToken, s)
  else
    let token := token?.getD ""
    let pending := readPending s
    match getField pending token with
    | none => (.invalidToken, s)
    | some draft =>
      let users := readUsers s
      let s2 := saveUsers s (users ++ [{ draft with approved := true }])
      let s3 := savePending s2 (deleteField pending token)
      (.approvedOk, s3)

/-- Outcome of `POST /api/auth/login`. -/
inductive LoginRes where
  | userNotFound                                  -- 404
  | notApproved                                   -- 403
  | wrongPassword                                 -- 401
  | loggedIn (token : String) (user : SafeUser)   -- 200 {token, user}
deriving DecidableEq, Repr

/-- HTTP status of a login outcome. -/
def loginStatus : LoginRes → Nat
  | .userNotFound => 404
  | .notApproved => 403
  | .wrongPassword => 401
  | .loggedIn _ _ => 200

/-- Embeds `POST /api/auth/login`. `check pw h` stands for `bcrypt.compare(pw, h)`
and `newToken` for the freshly signed `jwt.sign({email}, ...)`.
The store is not written. -/
def login (s : Store) (check : String → String → Bool) (newToken : String)
    (email password : String) : LoginRes :=
  let users := readUsers s
  match users.find? (emailMatch email) with
  | none => .userNotFound
  | some user =>
    if !user.approved then .notApproved
    else if !check password user.password then .wrongPassword
    else .loggedIn newToken (safeUser user)

/-- Outcome of `POST /api/auth/forgot`. -/
inductive ForgotRes where
  | userNotFound   -- 404
  | tempSent       -- 200 {message:'Đã gửi mật khẩu tạm thời.'}
deriving DecidableEq, Repr

/-- HTTP status of a forgot-password outcome. -/
def forgotStatus : ForgotRes → Nat
  | .userNotFound => 404
  | .tempSent => 200

/-- Embeds `POST /api/auth/forgot`. `tmpHash` stands for `bcrypt.hash(tmp, 10)` of
the randomly generated temporary password; the handler overwrites the
`password` field of the found user in place and saves the whole list. -/
def forgot (s : Store) (email : String) (tmpHash : String) : ForgotRes × Store :=
  let users := readUsers s
  if users.any (emailMatch email) then
    (.tempSent,
     saveUsers s (updateFirst (emailMatch email)
       (fun u => { u with password := tmpHash }) users))
  else (.userNotFound, s)

/-! ## Generic data routes -/

/-- Outcome of a `/api/data` route. -/
inductive DataRes where
  | badTable                   -- 400
  | listOk (data : List Obj)   -- 200, JSON array
  | okTrue                     -- 200 {ok:true}
  | itemNotFound               -- 404

/-- HTTP status of a data-route outcome. -/
def dataStatus : DataRes → Nat
  | .badTable => 400
  | .listOk _ => 200
  | .okTrue => 200
  | .itemNotFound => 404

/-- JSON body of a data-route outcome, with the literal strings of the source. -/
def dataBody : DataRes → JVal
  | .badTable => .jobj [("message", .jstr "Table không hợp lệ")]
  | .listOk l => .jarr (l.map .jobj)
  | .okTrue => .jobj [("ok", .jbool true)]
  | .itemNotFound => .jobj [("message", .jstr "Không tìm thấy mục")]

/-- Embeds `const allowedTables = ['rooms', 'guests', 'bookings', 'invoices', 'settings']`. -/
def allowedTables : List String := ["rooms", "guests", "bookings", "invoices", "settings"]

/-- The route predicate `String(i.id) === String(id)`; the path `id` is
already a string. -/
def recIdMatches (id : String) (r : Obj) : Bool :=
  jsStr (getField r "id") == id

/-- Embeds `GET /api/data/:table`. -/
def dataList (s : Store) (t : String) : DataRes × Store :=
  if !(allowedTables.contains t) then (.badTable, s)
  else (.listOk (readTable s t), s)

/-- Embeds `POST /api/data/:table`. `now` stands for `Date.now()` (ms). -/
def dataCreate (s : Store) (t : String) (body : Obj) (now : Int) : DataRes × Store :=
  if !(allowedTables.contains t) then (.badTable, s)
  else
    let list := readTable s t
    (.okTrue, saveTable s t (list ++ [setField body "id" (.jnum now)]))

/-- Embeds `PUT /api/data/:table/:id` (no table whitelist check in the source). -/
def dataUpdate (s : Store) (t id : String) (body : Obj) : DataRes × Store :=
  let list := readTable s t
  if list.any (recIdMatches id) then
    (.okTrue, saveTable s t (updateFirst (recIdMatches id) (fun r => mergeObj r body) list))
  else (.itemNotFound, s)

/-- Embeds `DELETE /api/data/:table/:id` (no table whitelist check, no existence
check in the source). -/
def dataDelete (s : Store) (t id : String) : DataRes × Store :=
  let list := readTable s t
  (.okTrue, saveTable s t (list.filter (fun r => !(recIdMatches id r))))

/-! ## Store key lemmas -/

theorem dataKey_ne_users (t : String) : dataKey t ≠ "users" := by
  intro h
  have h2 : (dataKey t).data = "users".data := congrArg String.data h
  simp [dataKey, String.data_append] at h2

theorem dataKey_ne_pending (t : String) : dataKey t ≠ "pending" := by
  intro h
  have h2 : (dataKey t).data = "pending".data := congrArg String.data h
  simp [dataKey, String.data_append] at h2

@[simp] theorem readUsers_saveUsers (s : Store) (l : List User) :
    readUsers (saveUsers s l) = l := by
  simp [readUsers, saveUsers, redisSet]

@[simp] theorem readPending_savePending (s : Store) (m : List (String × User)) :
    readPending (savePending s m) = m := by
  simp [readPending, savePending, redisSet]

@[simp] theorem readUsers_savePending (s : Store) (m : List (String × User)) :
    readUsers (savePending s m) = readUsers s := by
  simp [readUsers, savePending, redisSet]

@[simp] theorem readPending_saveUsers (s : Store) (l : List User) :
    readPending (saveUsers s l) = readPending s := by
  simp [readPending, saveUsers, redisSet]

@[simp] theorem readTable_saveTable (s : Store) (t : String) (l : List Obj) :
    readTable (saveTable s t l) t = l := by
  simp [readTable, saveTable, redisSet]

@[simp] theorem readUsers_saveTable (s : Store) (t : String) (l : List Obj) :
    readUsers (saveTable s t l) = readUsers s := by
  simp [readUsers, saveTable, redisSet, (dataKey_ne_users t).symm]

@[simp] theorem readPending_saveTable (s : Store) (t : String) (l : List Obj) :
    readPending (saveTable s t l) = readPending s := by
  simp [readPending, saveTable, redisSet, (dataKey_ne_pending t).symm]

theorem saveTable_apply_users (s : Store) (t : String) (l : List Obj) :
    saveTable s t l "users" = s "users" := by
  simp [saveTable, redisSet, (dataKey_ne_users t).symm]

theorem saveTable_apply_pending (s : Store) (t : String) (l : List Obj) :
    saveTable s t l "pending" = s "pending" := by
  simp [saveTable, redisSet, (dataKey_ne_pending t).symm]

/-! ## Association list lemmas -/

theorem getField_cons {β : Type} (p : String × β) (rest : List (String × β)) (k : String) :
    getField (p :: rest) k = if p.1 == k then some p.2 else getField rest k := by
  by_cases h : (p.1 == k) = true <;> simp [getField, List.find?, h]

theorem getField_eq_none_iff {β : Type} (o : List (String × β)) (k : String) :
    getField o k = none ↔ ∀ p ∈ o, (p.1 == k) = false := by
  simp [getField, List.find?_eq_none]

theorem getField_append_single_self {β : Type} (o : List (String × β)) (k : String) (v : β)
    (h : o.any (fun p => p.1 == k) = false) :
    getField (o ++ [(k, v)]) k = some v := by
  induction o with
  | nil => simp [getField_cons]
  | cons p rest ih =>
    simp only [List.any_cons, Bool.or_eq_false_iff] at h
    rw [List.cons_append, getField_cons, if_neg (by simp [h.1])]
    exact ih h.2

theorem getField_append_single_ne {β : Type} (o : List (String × β)) (k k' : String) (v : β)
    (hne : k' ≠ k) : getField (o ++ [(k, v)]) k' = getField o k' := by
  induction o with
  | nil =>
    rw [List.nil_append, getField_cons, if_neg (by simp [beq_iff_eq]; exact fun hh => hne hh.symm)]
  | cons p rest ih =>
    rw [List.cons_append, getField_cons, getField_cons]
    by_cases hp : (p.1 == k') = true
    · simp [hp]
    · rw [if_neg (by simp_all), if_neg (by simp_all)]
      exact ih

theorem getField_map_set_self {β : Type} (o : List (String × β)) (k : String) (v : β)
    (h : o.any (fun p => p.1 == k) = true) :
    getField (o.map (fun p => if p.1 == k then (k, v) else p)) k = some v := by
  induction o with
  | nil => simp at h
  | cons p rest ih =>
    by_cases hp : (p.1 == k) = true
    · rw [List.map_cons, if_pos hp, getField_cons, if_pos (by simp)]
    · simp only [List.any_cons, hp, Bool.false_or] at h
      rw [List.map_cons, if_neg hp, getField_cons, if_neg hp]
      exact ih h

theorem getField_map_set_ne {β : Type} (o : List (String × β)) (k k' : String) (v : β)
    (hne : k' ≠ k) :
    getField (o.map (fun p => if p.1 == k then (k, v) else p)) k' = getField o k' := by
  induction o with
  | nil => rfl
  | cons p rest ih =>
    by_cases hp : (p.1 == k) = true
    · have hp' : p.1 = k := by simpa using hp
      have h1 : (k == k') = false := by
        simp only [beq_eq_false_iff_ne, ne_eq]
        exact fun hh => hne hh.symm
      have h2 : (p.1 == k') = false := by rw [hp']; exact h1
      rw [List.map_cons, if_pos hp, getField_cons, getField_cons]
      simp only [h1, h2, if_neg, Bool.false_eq_true, if_false]
      exact ih
    · rw [List.map_cons, if_neg hp, getField_cons, getField_cons]
      by_cases hq : (p.1 == k') = true
      · simp [hq]
      · rw [if_neg hq, if_neg hq]
        exact ih

theorem getField_setField_self {β : Type} (o : List (String × β)) (k : String) (v : β) :
    getField (setField o k v) k = some v := by
  unfold setField
  by_cases h : o.any (fun p => p.1 == k) = true
  · rw [if_pos h]; exact getField_map_set_self o k v h
  · rw [if_neg h]
    exact getField_append_single_self o k v (Bool.eq_false_iff.mpr h)

theorem getField_setField_ne {β : Type} (o : List (String × β)) (k k' : String) (v : β)
    (hne : k' ≠ k) : getField (setField o k v) k' = getField o k' := by
  unfold setField
  by_cases h : o.any (fun p => p.1 == k) = true
  · rw [if_pos h]; exact getField_map_set_ne o k k' v hne
  · rw [if_neg h]; exact getField_append_single_ne o k k' v hne

theorem getField_deleteField_self {β : Type} (o : List (String × β)) (k : String) :
    getField (deleteField o k) k = none := by
  induction o with
  | nil => rfl
  | cons p rest ih =>
    by_cases hp : (p.1 == k) = true
    · rw [deleteField, List.filter_cons_of_neg (by simp [hp])]
      exact ih
    · rw [deleteField, List.filter_cons_of_pos (by simp [hp])]
      rw [getField_cons, if_neg hp]
      exact ih

theorem setField_of_fresh {β : Type} (o : List (String × β)) (k : String) (v : β)
    (h : o.any (fun p => p.1 == k) = false) :
    setField o k v = o ++ [(k, v)] := by
  rw [setField, if_neg (by rw [h]; exact Bool.false_ne_true)]

theorem getField_mergeObj_of_none (a b : Obj) (k : String)
    (h : getField b k = none) :
    getField (mergeObj a b) k = getField a k := by
  induction b generalizing a with
  | nil => rfl
  | cons p rest ih =>
    rw [getField_cons] at h
    by_cases hp : (p.1 == k) = true
    · rw [if_pos hp] at h; exact absurd h (by simp)
    · rw [if_neg hp] at h
      show getField (mergeObj (setField a p.1 p.2) rest) k = getField a k
      rw [ih (setField a p.1 p.2) h]
      exact getField_setField_ne a p.1 k p.2 (Ne.symm (by simpa using hp))

theorem getField_mergeObj_of_some (a b : Obj) (k : String) (v : JVal)
    (hnd : (b.map Prod.fst).Nodup) (h : getField b k = some v) :
    getField (mergeObj a b) k = some v := by
  induction b generalizing a with
  | nil => simp [getField] at h
  | cons p rest ih =>
    rw [List.map_cons, List.nodup_cons] at hnd
    rw [getField_cons] at h
    by_cases hp : (p.1 == k) = true
    · rw [if_pos hp] at h
      have hp' : p.1 = k := by simpa using hp
      have hrest : getField rest k = none := by
        rw [getField_eq_none_iff]
        intro q hq
        have hqne : q.1 ≠ p.1 := fun he => hnd.1 (he ▸ List.mem_map_of_mem Prod.fst hq)
        rw [beq_eq_false_iff_ne, ne_eq, ← hp']
        exact hqne
      show getField (mergeObj (setField a p.1 p.2) rest) k = some v
      rw [getField_mergeObj_of_none (setField a p.1 p.2) rest k hrest, ← hp',
        getField_setField_self]
      exact h
    · rw [if_neg hp] at h
      show getField (mergeObj (setField a p.1 p.2) rest) k = some v
      exact ih (setField a p.1 p.2) hnd.2 h

/-! ## First-match decomposition lemmas -/

theorem find?_middle {α : Type} (p : α → Bool) (l₁ l₂ : List α) (u : α)
    (h₁ : ∀ x ∈ l₁, p x = false) (hu : p u = true) :
    (l₁ ++ u :: l₂).find? p = some u := by
  induction l₁ with
  | nil => simp [List.find?, hu]
  | cons x xs ih =>
    rw [List.cons_append, List.find?_cons_of_neg]
    · exact ih fun y hy => h₁ y (List.mem_cons_of_mem _ hy)
    · simp [h₁ x (List.mem_cons_self _ _)]

theorem any_middle {α : Type} (p : α → Bool) (l₁ l₂ : List α) (u : α)
    (hu : p u = true) : (l₁ ++ u :: l₂).any p = true := by
  simp [List.any_append, hu]

theorem updateFirst_middle {α : Type} (p : α → Bool) (f : α → α) (l₁ l₂ : List α) (u : α)
    (h₁ : ∀ x ∈ l₁, p x = false) (hu : p u = true) :
    updateFirst p f (l₁ ++ u :: l₂) = l₁ ++ f u :: l₂ := by
  induction l₁ with
  | nil => simp [updateFirst, hu]
  | cons x xs ih =>
    have hx := h₁ x (List.mem_cons_self _ _)
    simp only [List.cons_append, updateFirst, hx, Bool.false_eq_true, if_false,
      List.cons.injEq, true_and]
    exact ih fun y hy => h₁ y (List.mem_cons_of_mem _ hy)

theorem find?_eq_none_of_any_eq_false {α : Type} (p : α → Bool) (l : List α)
    (h : l.any p = false) : l.find? p = none := by
  rw [List.find?_eq_none]
  intro x hx
  rw [List.any_eq_false] at h
  exact h x hx

theorem readTable_congr (s s' : Store) (t : String)
    (h : s' (dataKey t) = s (dataKey t)) : readTable s' t = readTable s t := by
  rw [readTable, readTable, h]

/-! ## Concrete data for witness instantiations -/

/-- An approved sample user. -/
def wUser1 : User :=
  { name := "Lan", email := "lan@x.vn", password := "pw1#",
    createdAt := "2026-01-01", approved := true }

/-- A registered-but-unapproved sample user. -/
def wUser2 : User :=
  { name := "Binh", email := "binh@x.vn", password := "pw2#",
    createdAt := "2026-01-02", approved := false }

/-- A pending sample draft awaiting approval. -/
def wDraft : User :=
  { name := "An", email := "an@x.vn", password := "hash3",
    createdAt := "2026-01-03", approved := false }

/-- A sample room record with id 17. -/
def wRoom : Obj := [("number", .jnum 101), ("id", .jnum 17)]

/-- A sample store holding two users, one pending draft and one room. -/
def wStore : Store := fun k =>
  if k = "users" then some (.usersV [wUser1, wUser2])
  else if k = "pending" then some (.pendingV [("tok77", wDraft)])
  else if k = dataKey "rooms" then some (.recsV [wRoom])
  else none

/-- A sample password check standing in for `bcrypt.compare`. -/
def wCheck (pw storedHash : String) : Bool := (pw ++ "#") == storedHash

/-! ## Claims -/

/-- Claim C7: `delete(table, id)` removes every record whose id stringifies equal
to the path id, preserves all other records in order, and returns `{ok:true}`
even when no record matched; afterwards `list(table)` (i.e. the stored
collection) contains no record with that id. -/
theorem delete_removes_all_matching_and_is_silent_success (s : Store) (t id : String) :
    (dataDelete s t id).1 = .okTrue ∧
    dataStatus (dataDelete s t id).1 = 200 ∧
    readTable (dataDelete s t id).2 t =
      (readTable s t).filter (fun r => !(recIdMatches id r)) ∧
    (∀ r ∈ readTable (dataDelete s t id).2 t, recIdMatches id r = false) ∧
    (readTable (dataDelete s t id).2 t).Sublist (readTable s t) ∧
    (∀ r ∈ readTable s t, recIdMatches id r = false →
      r ∈ readTable (dataDelete s t id).2 t) := by
  have hstore : (dataDelete s t id).2 =
      saveTable s t ((readTable s t).filter (fun r => !(recIdMatches id r))) := rfl
  have hread : readTable (dataDelete s t id).2 t =
      (readTable s t).filter (fun r => !(recIdMatches id r)) := by
    rw [hstore, readTable_saveTable]
  refine ⟨rfl, rfl, hread, ?_, ?_, ?_⟩
  · intro r hr
    rw [hread] at hr
    have := List.of_mem_filter hr
    simpa using this
  · rw [hread]
    exact List.filter_sublist _
  · intro r hr hm
    rw [hread]
    exact List.mem_filter.mpr ⟨hr, by simp [hm]⟩

/-- Witness for claim C7: deleting id 17 from the sample rooms collection empties it. -/
theorem delete_removes_all_matching_and_is_silent_success_witness :
    (dataDelete wStore "rooms" "17").1 = DataRes.okTrue ∧
    readTable (dataDelete wStore "rooms" "17").2 "rooms" = [] ∧
    wRoom ∈ readTable wStore "rooms" := by
  have h := delete_removes_all_matching_and_is_silent_success wStore "rooms" "17"
  refine ⟨h.1, ?_, ?_⟩
  · rw [h.2.2.1]
    rw [show readTable wStore "rooms" = [wRoom] from rfl]
    have hts : toString (17 : Int) = "17" := rfl
    have hm : recIdMatches "17" wRoom = true := by
      simp [recIdMatches, wRoom, getField, List.find?, jsStr, jvalToString, hts]
    simp [hm]
  · show wRoom ∈ readTable wStore "rooms"
    rw [show readTable wStore "rooms" = [wRoom] from rfl]
    exact List.mem_singleton.mpr rfl

/-- Claim C5: for every table name outside the whitelist, list and create fail
with 400 and the exact body `{"message":"Table không hợp lệ"}` without
touching the store, while update and delete perform no whitelist check and
proceed against the key `data_<table>`. -/
theorem non_whitelisted_table_asymmetry (t : String)
    (hT : allowedTables.contains t = false)
    (s : Store) (body : Obj) (id : String) (now : Int) :
    dataList s t = (.badTable, s) ∧
    dataCreate s t body now = (.badTable, s) ∧
    dataStatus (dataList s t).1 = 400 ∧
    dataBody (dataList s t).1 = .jobj [("message", .jstr "Table không hợp lệ")] ∧
    (dataUpdate s t id body).1 ≠ .badTable ∧
    dataDelete s t id =
      (.okTrue, saveTable s t ((readTable s t).filter (fun r => !(recIdMatches id r)))) ∧
    readTable (dataDelete s t id).2 t =
      (readTable s t).filter (fun r => !(recIdMatches id r)) := by
  have hmem : t ∉ allowedTables := by simpa using hT
  have hlist : dataList s t = (.badTable, s) := by
    simp [dataList, hmem]
  have hcreate : dataCreate s t body now = (.badTable, s) := by
    simp [dataCreate, hmem]
  refine ⟨hlist, hcreate, by rw [hlist]; rfl, by rw [hlist]; rfl, ?_, rfl,
    readTable_saveTable s t _⟩
  by_cases hc : (readTable s t).any (recIdMatches id) = true
  · simp [dataUpdate, hc]
  · simp only [Bool.not_eq_true] at hc
    simp [dataUpdate, hc]

/-- Witness for claim C5: the table name `unknown` is rejected by list with 400
and the exact Vietnamese error body. -/
theorem non_whitelisted_table_asymmetry_witness :
    allowedTables.contains "unknown" = false ∧
    dataList wStore "unknown" = (.badTable, wStore) ∧
    dataStatus (dataList wStore "unknown").1 = 400 ∧
    dataBody (dataList wStore "unknown").1 =
      .jobj [("message", .jstr "Table không hợp lệ")] ∧
    (dataUpdate wStore "unknown" "1" []).1 ≠ .badTable := by
  have hT : allowedTables.contains "unknown" = false := by decide
  have h := non_whitelisted_table_asymmetry "unknown" hT wStore [] "1" 0
  exact ⟨hT, h.1, h.2.2.1, h.2.2.2.1, h.2.2.2.2.1⟩

/-- Claim C10: every generic data route reads and writes only the store key
`data_<table>`; for every table name this key differs from `users` and
`pending`, the routes leave those keys untouched, and the route responses
depend only on the `data_<table>` key. -/
theorem data_routes_isolated_from_auth_keys (t : String) (s : Store) (id : String)
    (body : Obj) (now : Int) :
    dataKey t ≠ "users" ∧ dataKey t ≠ "pending" ∧
    (dataList s t).2 "users" = s "users" ∧ (dataList s t).2 "pending" = s "pending" ∧
    (dataCreate s t body now).2 "users" = s "users" ∧
    (dataCreate s t body now).2 "pending" = s "pending" ∧
    (dataUpdate s t id body).2 "users" = s "users" ∧
    (dataUpdate s t id body).2 "pending" = s "pending" ∧
    (dataDelete s t id).2 "users" = s "users" ∧
    (dataDelete s t id).2 "pending" = s "pending" ∧
    readUsers (dataCreate s t body now).2 = readUsers s ∧
    readPending (dataCreate s t body now).2 = readPending s ∧
    readUsers (dataUpdate s t id body).2 = readUsers s ∧
    readPending (dataUpdate s t id body).2 = readPending s ∧
    readUsers (dataDelete s t id).2 = readUsers s ∧
    readPending (dataDelete s t id).2 = readPending s ∧
    (∀ s2 : Store, s2 (dataKey t) = s (dataKey t) →
      (dataList s2 t).1 = (dataList s t).1 ∧
      (dataCreate s2 t body now).1 = (dataCreate s t body now).1 ∧
      (dataUpdate s2 t id body).1 = (dataUpdate s t id body).1 ∧
      (dataDelete s2 t id).1 = (dataDelete s t id).1) := by
  refine ⟨dataKey_ne_users t, dataKey_ne_pending t, ?_, ?_, ?_, ?_, ?_, ?_, ?_, ?_,
    ?_, ?_, ?_, ?_, ?_, ?_, ?_⟩
  · rw [dataList]; split <;> rfl
  · rw [dataList]; split <;> rfl
  · rw [dataCreate]; split
    · rfl
    · exact saveTable_apply_users s t (readTable s t ++ [setField body "id" (JVal.jnum now)])
  · rw [dataCreate]; split
    · rfl
    · exact saveTable_apply_pending s t (readTable s t ++ [setField body "id" (JVal.jnum now)])
  · rw [dataUpdate]
    by_cases hc : (readTable s t).any (recIdMatches id) = true
    · simp only [hc, if_true]
      exact saveTable_apply_users s t _
    · simp only [Bool.not_eq_true] at hc
      simp [hc]
  · rw [dataUpdate]
    by_cases hc : (readTable s t).any (recIdMatches id) = true
    · simp only [hc, if_true]
      exact saveTable_apply_pending s t _
    · simp only [Bool.not_eq_true] at hc
      simp [hc]
  · exact saveTable_apply_users s t ((readTable s t).filter (fun r => !(recIdMatches id r)))
  · exact saveTable_apply_pending s t ((readTable s t).filter (fun r => !(recIdMatches id r)))
  · rw [dataCreate]; split
    · rfl
    · exact readUsers_saveTable s t (readTable s t ++ [setField body "id" (JVal.jnum now)])
  · rw [dataCreate]; split
    · rfl
    · exact readPending_saveTable s t (readTable s t ++ [setField body "id" (JVal.jnum now)])
  · rw [dataUpdate]
    by_cases hc : (readTable s t).any (recIdMatches id) = true
    · simp only [hc, if_true]
      exact readUsers_saveTable s t _
    · simp only [Bool.not_eq_true] at hc
      simp [hc]
  · rw [dataUpdate]
    by_cases hc : (readTable s t).any (recIdMatches id) = true
    · simp only [hc, if_true]
      exact readPending_saveTable s t _
    · simp only [Bool.not_eq_true] at hc
      simp [hc]
  · exact readUsers_saveTable s t ((readTable s t).filter (fun r => !(recIdMatches id r)))
  · exact readPending_saveTable s t ((readTable s t).filter (fun r => !(recIdMatches id r)))
  · intro s2 h12
    have hRT : readTable s2 t = readTable s t := readTable_congr s s2 t h12
    refine ⟨?_, ?_, ?_, rfl⟩
    · by_cases hc : t ∈ allowedTables <;> simp [dataList, hc, hRT]
    · by_cases hc : t ∈ allowedTables <;> simp [dataCreate, hc, hRT]
    · by_cases hc : (readTable s t).any (recIdMatches id) = true <;>
        simp [dataUpdate, hRT, hc]

/-- Witness for claim C10: on the sample store, creating a room changes neither
the stored users nor the pending map, and list gives the same response
after the `users` key is cleared. -/
theorem data_routes_isolated_from_auth_keys_witness :
    readUsers (dataCreate wStore "rooms" [] 5).2 = readUsers wStore ∧
    readPending (dataCreate wStore "rooms" [] 5).2 = readPending wStore ∧
    (dataList (fun k => if k = "users" then none else wStore k) "rooms").1 =
      (dataList wStore "rooms").1 := by
  have h := data_routes_isolated_from_auth_keys "rooms" wStore "1" [] 5
  refine ⟨h.2.2.2.2.2.2.2.2.2.2.1, h.2.2.2.2.2.2.2.2.2.2.2.1, ?_⟩
  have hagree : (fun k => if k = "users" then none else wStore k : Store) (dataKey "rooms") =
      wStore (dataKey "rooms") := rfl
  exact (h.2.2.2.2.2.2.2.2.2.2.2.2.2.2.2.2 _ hagree).1

/-- Claim C1: approve fails with 400 when the token is missing and 404 when the
token is absent from the pending map; on success it appends the draft with
`approved := true` to the user list and removes the token from the pending
map, so a second approve with the same token answers 404 and leaves the
user list unchanged. -/
theorem approve_token_lifecycle (s : Store) (t : String) (draft : User)
    (ht : t.isEmpty = false)
    (hd : getField (readPending s) t = some draft) :
    approve s none = (.missingToken, s) ∧
    approveStatus (approve s none).1 = 400 ∧
    approve s (some t) =
      (.approvedOk,
        savePending (saveUsers s (readUsers s ++ [{ draft with approved := true }]))
          (deleteField (readPending s) t)) ∧
    approveStatus (approve s (some t)).1 = 200 ∧
    readUsers (approve s (some t)).2 = readUsers s ++ [{ draft with approved := true }] ∧
    readPending (approve s (some t)).2 = deleteField (readPending s) t ∧
    getField (readPending (approve s (some t)).2) t = none ∧
    approve (approve s (some t)).2 (some t) = (.invalidToken, (approve s (some t)).2) ∧
    approveStatus (approve (approve s (some t)).2 (some t)).1 = 404 ∧
    readUsers (approve (approve s (some t)).2 (some t)).2 =
      readUsers s ++ [{ draft with approved := true }] := by
  have h404 : ∀ s' : Store, getField (readPending s') t = none →
      approve s' (some t) = (.invalidToken, s') := by
    intro s' h
    simp [approve, falsy, ht, h]
  have hmain : approve s (some t) =
      (.approvedOk,
        savePending (saveUsers s (readUsers s ++ [{ draft with approved := true }]))
          (deleteField (readPending s) t)) := by
    simp [approve, falsy, ht, hd]
  have husers : readUsers (approve s (some t)).2 =
      readUsers s ++ [{ draft with approved := true }] := by
    rw [hmain]; simp
  have hpend : readPending (approve s (some t)).2 = deleteField (readPending s) t := by
    rw [hmain]; simp
  have hgone : getField (readPending (approve s (some t)).2) t = none := by
    rw [hpend]; exact getField_deleteField_self _ t
  have hsecond := h404 (approve s (some t)).2 hgone
  refine ⟨rfl, rfl, hmain, by rw [hmain]; rfl, husers, hpend, hgone, hsecond,
    by rw [hsecond]; rfl, by rw [hsecond]; exact husers⟩

/-- Witness for claim C1: approving the sample token promotes the draft and a
second approval with the same token answers 404. -/
theorem approve_token_lifecycle_witness :
    (approve wStore (some "tok77")).1 = ApproveRes.approvedOk ∧
    readUsers (approve wStore (some "tok77")).2 =
      [wUser1, wUser2, { wDraft with approved := true }] ∧
    (approve (approve wStore (some "tok77")).2 (some "tok77")).1 =
      ApproveRes.invalidToken := by
  have h1 : ("tok77").isEmpty = false := rfl
  have h2 : getField (readPending wStore) "tok77" = some wDraft := rfl
  have h := approve_token_lifecycle wStore "tok77" wDraft h1 h2
  refine ⟨by rw [h.2.2.1], ?_, by rw [h.2.2.2.2.2.2.2.1]⟩
  rw [h.2.2.2.2.1]
  rfl

/-- Claim C4: for every whitelisted table and JSON body `X`, create then list
yields a list whose last element is `X` extended with the server-assigned
numeric id `now` (the creation time in ms), with any pre-existing id field
overwritten and all other fields of `X` preserved. -/
theorem create_then_list_round_trip (s : Store) (t : String) (X : Obj) (now : Int)
    (hT : t ∈ allowedTables) :
    (dataCreate s t X now).1 = .okTrue ∧
    dataStatus (dataCreate s t X now).1 = 200 ∧
    dataList (dataCreate s t X now).2 t =
      (.listOk (readTable s t ++ [setField X "id" (.jnum now)]),
       (dataCreate s t X now).2) ∧
    (readTable (dataCreate s t X now).2 t).getLast? = some (setField X "id" (.jnum now)) ∧
    getField (setField X "id" (.jnum now)) "id" = some (.jnum now) ∧
    (∀ k, k ≠ "id" → getField (setField X "id" (.jnum now)) k = getField X k) := by
  have hst : dataCreate s t X now =
      (.okTrue, saveTable s t (readTable s t ++ [setField X "id" (.jnum now)])) := by
    simp [dataCreate, hT]
  refine ⟨by rw [hst], by rw [hst]; rfl, ?_, ?_, getField_setField_self X "id" _, ?_⟩
  · rw [hst]
    simp [dataList, hT]
  · rw [hst]
    show (readTable (saveTable s t _) t).getLast? = _
    rw [readTable_saveTable]
    exact List.getLast?_concat _
  · intro k hk
    exact getField_setField_ne X "id" k _ hk

/-- A sample create body that already carries an id field. -/
def wBody : Obj := [("number", .jnum 101), ("id", .jstr "old")]

/-- Witness for claim C4: creating a room from the sample body appends it with
the numeric id 1700 overwriting the body's own id field. -/
theorem create_then_list_round_trip_witness :
    (dataCreate wStore "rooms" wBody 1700).1 = DataRes.okTrue ∧
    (readTable (dataCreate wStore "rooms" wBody 1700).2 "rooms").getLast? =
      some (setField wBody "id" (.jnum 1700)) ∧
    getField (setField wBody "id" (.jnum 1700)) "id" = some (.jnum 1700) ∧
    getField (setField wBody "id" (.jnum 1700)) "number" = some (.jnum 101) := by
  have hT : "rooms" ∈ allowedTables := by decide
  have h := create_then_list_round_trip wStore "rooms" wBody 1700 hT
  refine ⟨h.1, h.2.2.2.1, h.2.2.2.2.1, ?_⟩
  rw [h.2.2.2.2.2 "number" (by decide)]
  rfl

/-- Claim C2: login checks in order: 404 when no stored user matches the email
case-insensitively; 403 when the matched user is unapproved, regardless of
the password; 401 iff the user is approved and the password check fails;
on success a fresh token plus the password-stripped user record. -/
theorem login_check_order (s : Store) (check : String → String → Bool)
    (tok email pw : String) (l₁ l₂ : List User) (u : User)
    (hs : readUsers s = l₁ ++ u :: l₂)
    (h₁ : ∀ x ∈ l₁, emailMatch email x = false)
    (hu : emailMatch email u = true) :
    (∀ s' : Store, (readUsers s').any (emailMatch email) = false →
      login s' check tok email pw = .userNotFound) ∧
    loginStatus .userNotFound = 404 ∧
    (u.approved = false → ∀ (check' : String → String → Bool) (pw' : String),
      login s check' tok email pw' = .notApproved) ∧
    loginStatus .notApproved = 403 ∧
    (u.approved = true →
      (login s check tok email pw = .wrongPassword ↔ check pw u.password = false)) ∧
    loginStatus .wrongPassword = 401 ∧
    (u.approved = true → check pw u.password = true →
      login s check tok email pw = .loggedIn tok (safeUser u)) ∧
    loginStatus (.loggedIn tok (safeUser u)) = 200 := by
  have hfind : (readUsers s).find? (emailMatch email) = some u := by
    rw [hs]; exact find?_middle _ l₁ l₂ u h₁ hu
  refine ⟨?_, rfl, ?_, rfl, ?_, rfl, ?_, rfl⟩
  · intro s' h
    have hnone := find?_eq_none_of_any_eq_false (emailMatch email) (readUsers s') h
    simp [login, hnone]
  · intro hap check' pw'
    simp [login, hfind, hap]
  · intro hap
    cases hcheck : check pw u.password <;> simp [login, hfind, hap, hcheck]
  · intro hap hok
    simp [login, hfind, hap, hok]

/-- Witness for claim C2: on the sample store, the approved user logs in with the
right password, gets 401 with a wrong one; the unapproved user gets 403
even with the right password; an unknown email gets 404. -/
theorem login_check_order_witness :
    login wStore wCheck "newtok" "LAN@X.VN" "pw1" =
      LoginRes.loggedIn "newtok" (safeUser wUser1) ∧
    login wStore wCheck "newtok" "LAN@X.VN" "bad" = LoginRes.wrongPassword ∧
    login wStore wCheck "newtok" "binh@x.vn" "pw2" = LoginRes.notApproved ∧
    login (fun _ => none : Store) wCheck "newtok" "LAN@X.VN" "pw1" =
      LoginRes.userNotFound := by
  have hA := login_check_order wStore wCheck "newtok" "LAN@X.VN" "pw1" [] [wUser2] wUser1
    rfl (by intro x hx; cases hx) (by decide)
  have hB := login_check_order wStore wCheck "newtok" "LAN@X.VN" "bad" [] [wUser2] wUser1
    rfl (by intro x hx; cases hx) (by decide)
  have hC := login_check_order wStore wCheck "newtok" "binh@x.vn" "pw2" [wUser1] [] wUser2
    rfl (by decide) (by decide)
  refine ⟨hA.2.2.2.2.2.2.1 rfl (by decide), ?_, hC.2.2.1 rfl wCheck "pw2", ?_⟩
  · exact (hB.2.2.2.2.1 rfl).mpr (by decide)
  · exact hA.1 (fun _ => none) (by decide)

/-- Claim C3: register answers 400 when a field is missing, 409 exactly when a
case-insensitively equal email exists among the active users (pending
drafts are not consulted), and on success with a fresh email adds exactly
one pending draft with `approved := false` under the minted token while
leaving the active user list unchanged. -/
theorem register_fresh_email_creates_one_pending_draft (s : Store)
    (name email password hash createdAt token : String)
    (hn : name.isEmpty = false) (he : email.isEmpty = false) (hp : password.isEmpty = false)
    (hconf : (readUsers s).any (emailMatch email) = false)
    (hfresh : (readPending s).any (fun q => q.1 == token) = false) :
    register s (some name) (some email) (some password) hash createdAt token true =
      (.registered,
        savePending s (readPending s ++
          [(token, { name := name, email := email, password := hash,
                     createdAt := createdAt, approved := false })])) ∧
    registerStatus .registered = 200 ∧
    readPending (register s (some name) (some email) (some password)
        hash createdAt token true).2 =
      readPending s ++
        [(token, { name := name, email := email, password := hash,
                   createdAt := createdAt, approved := false })] ∧
    (readPending (register s (some name) (some email) (some password)
        hash createdAt token true).2).length = (readPending s).length + 1 ∧
    getField (readPending (register s (some name) (some email) (some password)
        hash createdAt token true).2) token =
      some { name := name, email := email, password := hash,
             createdAt := createdAt, approved := false } ∧
    (User.mk name email hash createdAt false).approved = false ∧
    readUsers (register s (some name) (some email) (some password)
        hash createdAt token true).2 = readUsers s ∧
    (∀ (n? e? p? : Option String) (s' : Store) (mo : Bool),
      (falsy n? || falsy e? || falsy p?) = true →
      register s' n? e? p? hash createdAt token mo = (.missingFields, s')) ∧
    registerStatus .missingFields = 400 ∧
    (∀ (s' : Store) (mo : Bool),
      ((register s' (some name) (some email) (some password)
          hash createdAt token mo).1 = .emailExists ↔
        (readUsers s').any (emailMatch email) = true)) ∧
    registerStatus .emailExists = 409 := by
  have hset : setField (readPending s) token
      { name := name, email := email, password := hash,
        createdAt := createdAt, approved := false } =
      readPending s ++
        [(token, { name := name, email := email, password := hash,
                   createdAt := createdAt, approved := false })] :=
    setField_of_fresh _ _ _ hfresh
  have hmain : register s (some name) (some email) (some password)
      hash createdAt token true =
      (.registered,
        savePending s (readPending s ++
          [(token, { name := name, email := email, password := hash,
                     createdAt := createdAt, approved := false })])) := by
    simp [register, falsy, hn, he, hp, hconf, hset]
  have hpend : readPending (register s (some name) (some email) (some password)
      hash createdAt token true).2 =
      readPending s ++
        [(token, { name := name, email := email, password := hash,
                   createdAt := createdAt, approved := false })] := by
    rw [hmain]; simp
  refine ⟨hmain, rfl, hpend, ?_, ?_, rfl, by rw [hmain]; simp, ?_, rfl, ?_, rfl⟩
  · rw [hpend]; simp
  · rw [hpend]
    exact getField_append_single_self _ token _ hfresh
  · intro n? e? p? s' mo hf
    simp [register, hf]
  · intro s' mo
    by_cases hc : (readUsers s').any (emailMatch email) = true
    · simp [register, falsy, hn, he, hp, hc]
    · cases mo <;> simp [register, falsy, hn, he, hp, hc]

/-- Witness for claim C3: registering a fresh email on the sample store adds one
pending draft under the minted token and leaves the users untouched. -/
theorem register_fresh_email_creates_one_pending_draft_witness :
    (register wStore (some "Moi") (some "moi@x.vn") (some "pw9")
      "h9" "2026-02" "newtok" true).1 = RegisterRes.registered ∧
    readPending (register wStore (some "Moi") (some "moi@x.vn") (some "pw9")
      "h9" "2026-02" "newtok" true).2 =
      [("tok77", wDraft),
       ("newtok", { name := "Moi", email := "moi@x.vn", password := "h9",
                    createdAt := "2026-02", approved := false })] ∧
    readUsers (register wStore (some "Moi") (some "moi@x.vn") (some "pw9")
      "h9" "2026-02" "newtok" true).2 = [wUser1, wUser2] := by
  have h := register_fresh_email_creates_one_pending_draft wStore
    "Moi" "moi@x.vn" "pw9" "h9" "2026-02" "newtok" rfl rfl rfl (by decide) (by decide)
  refine ⟨by rw [h.1], ?_, by rw [h.2.2.2.2.2.2.1]; rfl⟩
  rw [h.2.2.1]
  rfl

/-- Claim C6: update answers 404 when no record's id stringifies equal to the
path id; otherwise it shallow-merges the body onto the first matched
record: body fields win, omitted fields of the record persist, and every
other record is unchanged. -/
theorem update_shallow_merges_first_match (s : Store) (t id : String) (body : Obj)
    (l₁ l₂ : List Obj) (r : Obj)
    (hs : readTable s t = l₁ ++ r :: l₂)
    (h₁ : ∀ x ∈ l₁, recIdMatches id x = false)
    (hr : recIdMatches id r = true)
    (hnd : (body.map Prod.fst).Nodup) :
    (∀ s' : Store, (readTable s' t).any (recIdMatches id) = false →
      dataUpdate s' t id body = (.itemNotFound, s')) ∧
    dataStatus .itemNotFound = 404 ∧
    (dataUpdate s t id body).1 = .okTrue ∧
    readTable (dataUpdate s t id body).2 t = l₁ ++ mergeObj r body :: l₂ ∧
    (∀ k v, getField body k = some v → getField (mergeObj r body) k = some v) ∧
    (∀ k, getField body k = none → getField (mergeObj r body) k = getField r k) := by
  have hany : (readTable s t).any (recIdMatches id) = true := by
    rw [hs]; exact any_middle _ l₁ l₂ r hr
  have hupd : updateFirst (recIdMatches id) (fun x => mergeObj x body) (readTable s t) =
      l₁ ++ mergeObj r body :: l₂ := by
    rw [hs]; exact updateFirst_middle _ _ l₁ l₂ r h₁ hr
  have hmain : dataUpdate s t id body =
      (.okTrue, saveTable s t (l₁ ++ mergeObj r body :: l₂)) := by
    simp [dataUpdate, hany, hupd]
  refine ⟨?_, rfl, by rw [hmain], ?_, ?_, ?_⟩
  · intro s' h
    simp [dataUpdate, h]
  · rw [hmain]
    exact readTable_saveTable s t _
  · intro k v h
    exact getField_mergeObj_of_some r body k v hnd h
  · intro k h
    exact getField_mergeObj_of_none r body k h

/-- Witness for claim C6: patching the sample room's `number` field changes it
while the `id` field persists. -/
theorem update_shallow_merges_first_match_witness :
    (dataUpdate wStore "rooms" "17" [("number", JVal.jnum 202)]).1 = DataRes.okTrue ∧
    readTable (dataUpdate wStore "rooms" "17" [("number", JVal.jnum 202)]).2 "rooms" =
      [mergeObj wRoom [("number", JVal.jnum 202)]] ∧
    getField (mergeObj wRoom [("number", JVal.jnum 202)]) "number" =
      some (JVal.jnum 202) ∧
    getField (mergeObj wRoom [("number", JVal.jnum 202)]) "id" = some (JVal.jnum 17) := by
  have hts : toString (17 : Int) = "17" := rfl
  have hr : recIdMatches "17" wRoom = true := by
    simp [recIdMatches, wRoom, getField, List.find?, jsStr, jvalToString, hts]
  have h := update_shallow_merges_first_match wStore "rooms" "17"
    [("number", JVal.jnum 202)] [] [] wRoom rfl (by intro x hx; cases hx) hr (by simp)
  refine ⟨h.2.2.1, by rw [h.2.2.2.1]; rfl, ?_, ?_⟩
  · exact h.2.2.2.2.1 "number" (JVal.jnum 202) rfl
  · rw [h.2.2.2.2.2 "id" rfl]
    rfl

/-- Claim C8: forgot-password answers 404 exactly when no stored user matches
the email case-insensitively, does not consult the approved flag, and on
success replaces only the matched user's password with the new hash,
leaving that user's other fields and every other user unchanged. -/
theorem forgot_resets_only_matched_user_password (s : Store) (email tmpHash : String)
    (l₁ l₂ : List User) (u : User)
    (hs : readUsers s = l₁ ++ u :: l₂)
    (h₁ : ∀ x ∈ l₁, emailMatch email x = false)
    (hu : emailMatch email u = true) :
    (∀ s' : Store, ((forgot s' email tmpHash).1 = .userNotFound ↔
      (readUsers s').any (emailMatch email) = false)) ∧
    forgotStatus .userNotFound = 404 ∧
    (forgot s email tmpHash).1 = .tempSent ∧
    forgotStatus .tempSent = 200 ∧
    readUsers (forgot s email tmpHash).2 = l₁ ++ { u with password := tmpHash } :: l₂ ∧
    readPending (forgot s email tmpHash).2 = readPending s ∧
    { u with password := tmpHash }.name = u.name ∧
    { u with password := tmpHash }.email = u.email ∧
    { u with password := tmpHash }.createdAt = u.createdAt ∧
    { u with password := tmpHash }.approved = u.approved ∧
    { u with password := tmpHash }.password = tmpHash := by
  have hany : (readUsers s).any (emailMatch email) = true := by
    rw [hs]; exact any_middle _ l₁ l₂ u hu
  have hupd : updateFirst (emailMatch email) (fun x => { x with password := tmpHash })
      (readUsers s) = l₁ ++ { u with password := tmpHash } :: l₂ := by
    rw [hs]; exact updateFirst_middle _ _ l₁ l₂ u h₁ hu
  have hmain : forgot s email tmpHash =
      (.tempSent, saveUsers s (l₁ ++ { u with password := tmpHash } :: l₂)) := by
    simp [forgot, hany, hupd]
  refine ⟨?_, rfl, by rw [hmain], rfl, by rw [hmain]; simp, by rw [hmain]; simp,
    rfl, rfl, rfl, rfl, rfl⟩
  intro s'
  cases hb : (readUsers s').any (emailMatch email) <;> simp [forgot, hb]

/-- Witness for claim C8: resetting the unapproved sample user's password (via a
differently-cased email) replaces only that password; an unknown email
answers 404. -/
theorem forgot_resets_only_matched_user_password_witness :
    wUser2.approved = false ∧
    (forgot wStore "BINH@x.vn" "newhash").1 = ForgotRes.tempSent ∧
    readUsers (forgot wStore "BINH@x.vn" "newhash").2 =
      [wUser1, { wUser2 with password := "newhash" }] ∧
    (forgot (fun _ => none : Store) "BINH@x.vn" "newhash").1 =
      ForgotRes.userNotFound := by
  have h := forgot_resets_only_matched_user_password wStore "BINH@x.vn" "newhash"
    [wUser1] [] wUser2 rfl (by decide) (by decide)
  refine ⟨rfl, h.2.2.1, by rw [h.2.2.2.2.1]; rfl, ?_⟩
  exact (h.1 (fun _ => none)).mpr (by decide)

/-- Claim C9: in register the pending draft is persisted before the admin mail is
sent; when the mail send fails the response is 500 yet the pending map
already contains the new draft, while the user list is unchanged. -/
theorem register_mail_failure_leaves_draft_persisted (s : Store)
    (name email password hash createdAt token : String)
    (hn : name.isEmpty = false) (he : email.isEmpty = false) (hp : password.isEmpty = false)
    (hconf : (readUsers s).any (emailMatch email) = false) :
    register s (some name) (some email) (some password) hash createdAt token false =
      (.registerError,
        savePending s (setField (readPending s) token
          { name := name, email := email, password := hash,
            createdAt := createdAt, approved := false })) ∧
    registerStatus .registerError = 500 ∧
    getField (readPending (register s (some name) (some email) (some password)
        hash createdAt token false).2) token =
      some { name := name, email := email, password := hash,
             createdAt := createdAt, approved := false } ∧
    readUsers (register s (some name) (some email) (some password)
        hash createdAt token false).2 = readUsers s := by
  have hmain : register s (some name) (some email) (some password)
      hash createdAt token false =
      (.registerError,
        savePending s (setField (readPending s) token
          { name := name, email := email, password := hash,
            createdAt := createdAt, approved := false })) := by
    simp [register, falsy, hn, he, hp, hconf]
  refine ⟨hmain, rfl, ?_, by rw [hmain]; simp⟩
  rw [hmain]
  show getField (readPending (savePending s _)) token = _
  rw [readPending_savePending]
  exact getField_setField_self _ token _

/-- Witness for claim C9: a failed admin mail yields 500 while the fresh draft
is already stored under the minted token. -/
theorem register_mail_failure_leaves_draft_persisted_witness :
    (register wStore (some "Moi") (some "moi@x.vn") (some "pw9")
      "h9" "2026-02" "newtok" false).1 = RegisterRes.registerError ∧
    getField (readPending (register wStore (some "Moi") (some "moi@x.vn") (some "pw9")
      "h9" "2026-02" "newtok" false).2) "newtok" =
      some { name := "Moi", email := "moi@x.vn", password := "h9",
             createdAt := "2026-02", approved := false } ∧
    readUsers (register wStore (some "Moi") (some "moi@x.vn") (some "pw9")
      "h9" "2026-02" "newtok" false).2 = [wUser1, wUser2] := by
  have h := register_mail_failure_leaves_draft_persisted wStore
    "Moi" "moi@x.vn" "pw9" "h9" "2026-02" "newtok" rfl rfl rfl (by decide)
  exact ⟨by rw [h.1], h.2.2.1, by rw [h.2.2.2]; rfl⟩

end PhongNews
